import Mathlib

/-!
Shallow embedding of the yanu patching pipeline.

Source files embedded:
* `crates/hac/src/vfs/ticket.rs` — ticket key reader (`TitleKey::new`).
* `src/hac/rom.rs` — `Nsp` (package handle), `Nca` (content-unit classifier).
* `src/hac/patch.rs` — `patch_nsp_with_update` orchestrator.
* `crates/hac/src/utils/mod.rs` — `CleanupDirsOnDrop` resource guard.

Filesystem contents and external tool invocations are modelled as explicit
inputs (an `Entry` carries a file name, its size, its bytes, and the exit
status / captured stdout of the inspection tool on it; an `Env` carries the
directory listings and the exit statuses of each external process stage).
Rust `Result`-errors and panics are both modelled as `Except` errors, with a
distinct `panicked` constructor for `expect`/panic sites.
-/

namespace Yanu

/-- Error kinds mirroring the error taxonomy of the source: `validation` for
wrong-extension / unparsable-token bails, `toolErr` for non-success exits of
external processes, `notFound` for missing-ticket bails, `ioErr` for
filesystem read failures (Rust `io::Error`), and `panicked` for
`expect`/panic sites. -/
inductive Err where
  | validation (msg : String)
  | toolErr (msg : String)
  | notFound (msg : String)
  | ioErr (msg : String)
  | panicked (msg : String)
deriving Repr, DecidableEq

/-- Whether an error is a panic. A Rust `match` on a `Result` can catch only
the `Err` variants; a panic unwinds past it and aborts the process, so every
embedded catch site lets `panicked` errors propagate. -/
def Err.isPanic : Err → Bool
  | .panicked _ => true
  | _ => false

/-- Lowercase hexadecimal digit table lookup, as in the `hex` crate
(`hex::encode` uses the lowercase alphabet). Input is a digit below 16. -/
def hexDigitChar (n : Nat) : Char :=
  match n with
  | 0 => '0' | 1 => '1' | 2 => '2' | 3 => '3'
  | 4 => '4' | 5 => '5' | 6 => '6' | 7 => '7'
  | 8 => '8' | 9 => '9' | 10 => 'a' | 11 => 'b'
  | 12 => 'c' | 13 => 'd' | 14 => 'e' | 15 => 'f'
  | _ => '0'

/-- Embedding of `hex::encode` on a byte string: each byte (< 256) becomes
its high nibble then its low nibble, in lowercase hex. -/
def hexEncode (bs : List Nat) : String :=
  ⟨bs.flatMap fun b => [hexDigitChar (b / 16 % 16), hexDigitChar (b % 16)]⟩

/-- `TitleKey` from `crates/hac/src/vfs/ticket.rs`: a 16-byte title id and a
16-byte key (bytes as `Nat`s below 256). -/
structure TitleKey where
  title_id : List Nat
  key : List Nat
deriving Repr, DecidableEq

/-- The `Display` impl of `TitleKey`: `hex::encode(title_id)=hex::encode(key)`. -/
def TitleKey.toText (k : TitleKey) : String :=
  hexEncode k.title_id ++ "=" ++ hexEncode k.key

/-- Offsets from the `TicketData` enum in `ticket.rs`. -/
def titleIdOffset : Nat := 0x2a0

/-- Offset of the title key field in a common ticket. -/
def titleKeyOffset : Nat := 0x180

/-- Embedding of `Seek::seek` to `off` followed by `Read::read_exact` of
`len` bytes: succeeds and returns exactly the `len` bytes starting at `off`
when the blob holds them, and fails (an `io::Error`, no partial data) when it
reaches end of file first. -/
def readExact (bytes : List Nat) (off len : Nat) : Except Err (List Nat) :=
  if off + len ≤ bytes.length then .ok ((bytes.drop off).take len)
  else .error (.ioErr "failed to fill whole buffer")

/-- Embedding of `TitleKey::new` from `ticket.rs`. The input is `none` when
the ticket file cannot be opened (missing file), `some bytes` otherwise.
Reads 16 bytes at `0x2a0` into `title_id`, then 16 bytes at `0x180` into
`key`; each read failure propagates as an I/O error. -/
def TitleKey.new (tik : Option (List Nat)) : Except Err TitleKey := do
  match tik with
  | none => throw (.ioErr "No such file or directory")
  | some bytes =>
    let tid ← readExact bytes titleIdOffset 16
    let key ← readExact bytes titleKeyOffset 16
    pure { title_id := tid, key := key }

/-- Embedding of Rust `Path::extension` on a file name: the portion of the
name after the final dot, or `none` when there is no dot or the only dot is
the leading character (and for the special names "." and ".."). -/
def pathExtension (name : String) : Option String :=
  if name = "." ∨ name = ".." then none
  else
    let rev := name.data.reverse
    if rev.contains '.' then
      let extRev := rev.takeWhile (fun c => c ≠ '.')
      let stemRev := (rev.dropWhile (fun c => c ≠ '.')).tail
      if stemRev.isEmpty then none
      else some ⟨extRev.reverse⟩
    else none

example : pathExtension "game.nsp" = some "nsp" := by decide
example : pathExtension "game.NSP" = some "NSP" := by decide
example : pathExtension "game" = none := by decide
example : pathExtension ".nsp" = none := by decide
example : pathExtension "a.b.nca" = some "nca" := by decide
deriving instance DecidableEq for Except

set_option maxRecDepth 4096

/-- Split a character list at every occurrence of `sep`, keeping empty
pieces, as Rust `str::split(sep)` does. The result is never empty. -/
def splitChar (sep : Char) : List Char → List (List Char)
  | [] => [[]]
  | c :: rest =>
    let r := splitChar sep rest
    if c = sep then [] :: r
    else
      match r with
      | t :: ts => (c :: t) :: ts
      | [] => [[c]]

/-- Embedding of Rust `str::trim`: strip whitespace from both ends. -/
def trimChars (cs : List Char) : List Char :=
  ((cs.dropWhile Char.isWhitespace).reverse.dropWhile Char.isWhitespace).reverse

/-- Substring containment, as Rust `str::find(pat).is_some()`. -/
def containsSub (pat : List Char) : List Char → Bool
  | [] => pat.isPrefixOf []
  | c :: rest => pat.isPrefixOf (c :: rest) || containsSub pat rest

/-- Embedding of Rust `str::lines`: split on newline, drop a final empty
piece produced by a trailing newline, and strip a trailing carriage return
from each line. -/
def rustLines (s : String) : List String :=
  let ls := splitChar '\n' s.data
  let ls := if ls.getLast? = some [] then ls.dropLast else ls
  ls.map fun l => ⟨if l.getLast? = some '\r' then l.dropLast else l⟩

/-- Does the line contain the marker as a substring (`line.find(marker)`)? -/
def lineContains (line marker : String) : Bool :=
  containsSub marker.data line.data

/-- Embedding of `line.trim().split(' ').last()` from `rom.rs`: the final
space-delimited token of the trimmed line. -/
def lastToken (line : String) : Option String :=
  ((splitChar ' ' (trimChars line.data)).getLast?).map fun t => ⟨t⟩

/-- The closed content-type enum `NcaType` from `rom.rs`. -/
inductive NcaType where
  | Control
  | Program
  | Meta
  | Manual
deriving Repr, DecidableEq

/-- Embedding of the derived strum `FromStr` for `NcaType`: exact,
case-sensitive match of a variant name. -/
def NcaType.fromStr (s : String) : Option NcaType :=
  if s = "Control" then some .Control
  else if s = "Program" then some .Program
  else if s = "Meta" then some .Meta
  else if s = "Manual" then some .Manual
  else none

/-- A file visited by a directory walk. The filesystem and the external
inspection tool are modelled by explicit fields: `bytes` is the file content
(`none` when the file cannot be opened), `toolExit` is the exit status of
running the inspection tool (hactool) on it and `toolStdout` the captured
standard output of that run. -/
structure Entry where
  name : String
  size : Nat
  bytes : Option (List Nat)
  toolExit : Bool
  toolStdout : String
deriving Repr, DecidableEq

/-- A classified content unit, `Nca` from `rom.rs`. -/
structure Nca where
  path : String
  title_id : Option String
  content_type : NcaType
deriving Repr, DecidableEq

/-- Embedding of `Nca::from` in `rom.rs`: validate the `nca` extension, run
the inspection tool and require a success exit, then parse the captured
stdout: the final token of the first line containing "Title ID:" (optional),
and the final token of the first line containing "Content Type:" parsed as an
`NcaType` (an unrecognized token is a validation error; a missing line hits
the `expect` panic at the struct construction). -/
def Nca.fromEntry (e : Entry) : Except Err Nca := do
  match pathExtension e.name with
  | none => throw (.validation "no file found")
  | some ext =>
    if ext ≠ "nca" then
      throw (.validation (e.name ++ " is not a nca file"))
    else if ¬ e.toolExit then
      throw (.toolErr ("hactool failed to view info of " ++ e.name))
    else
      let ls := rustLines e.toolStdout
      let title_id ← match ls.find? (fun l => lineContains l "Title ID:") with
        | some line =>
          match lastToken line with
          | some t => pure (some t)
          | none => throw (.panicked "line must have had an item")
        | none => pure (none : Option String)
      let content_type ← match ls.find? (fun l => lineContains l "Content Type:") with
        | some line =>
          match lastToken line with
          | some t =>
            match NcaType.fromStr t with
            | some ty => pure ty
            | none => throw (.validation "failed to identify nca content type")
          | none => throw (.panicked "line must have had an item")
        | none => throw (.panicked "content type should have been found")
      pure { path := e.name, title_id := title_id, content_type := content_type }

/-- The package handle `Nsp` from `rom.rs`. -/
structure Nsp where
  path : String
  title_key : Option TitleKey
deriving Repr, DecidableEq

/-- Embedding of `Nsp::from` in `rom.rs`: the extension must exist and equal
"nsp" (case-sensitively); the handle starts with no title key. The function
takes only the path: it performs no filesystem access. -/
def Nsp.fromPath (name : String) : Except Err Nsp :=
  match pathExtension name with
  | none => .error (.validation "no file found")
  | some ext =>
    if ext = "nsp" then .ok { path := name, title_key := none }
    else .error (.validation (name ++ " is not a nsp file"))

/-- Embedding of `Nsp::get_title_key` in `rom.rs`: the textual form of the
key, or the sentinel "=" when no key was derived. -/
def Nsp.get_title_key (n : Nsp) : String :=
  match n.title_key with
  | some k => k.toText
  | none => "="

/-- Embedding of `Nsp::derive_title_key` in `rom.rs`: a no-op success when a
key is already present; otherwise scan the walk entries in order for the
first file with the "tik" extension and read it with the Ticket Key Reader
(read failures propagate); fail with a not-found error when the walk holds no
ticket file. -/
def Nsp.derive_title_key (n : Nsp) (entries : List Entry) : Except Err Nsp :=
  match n.title_key with
  | some _ => .ok n
  | none =>
    match entries.find? (fun e => pathExtension e.name = some "tik") with
    | some e => (TitleKey.new e.bytes).map fun k => { n with title_key := some k }
    | none => .error (.notFound ("Couldnt derive TitleKey, " ++ n.path ++ " doesnt have a .tik file"))

/-- The stable ascending-by-file-size sort applied to both walks in
`patch.rs` (`WalkDir::sort_by` comparing `metadata().len()`), modelled as a
stable insertion sort on the ascending size relation. -/
def sortBySize (l : List Entry) : List Entry :=
  l.insertionSort fun a b => a.size ≤ b.size

/-- The body of the base-package scan loop in `patch.rs` (lines 55-89), run
on the already-sorted entries: skip entries without a "nca" extension, skip
entries whose classification fails with a `Result` error (the `Err` arm only
warns), skip classified units that are not `Program`, and stop at the first
`Program` unit. A classification panic (`Err.isPanic`) cannot be caught by
the `Err` arm: it aborts the scan and the process. -/
def scanBase : List Entry → Except Err (Option Nca)
  | [] => .ok none
  | e :: es =>
    if pathExtension e.name = some "nca" then
      match Nca.fromEntry e with
      | .ok nca =>
        match nca.content_type with
        | .Program => .ok (some nca)
        | _ => scanBase es
      | .error err => if err.isPanic then .error err else scanBase es
    else scanBase es

/-- The base-package selection: sort ascending by size, then scan. -/
def selectBaseNca (entries : List Entry) : Except Err (Option Nca) :=
  scanBase (sortBySize entries)

/-- First successfully classified unit of the given type in a list, a
direct "first match" description used to characterize the scan loops. -/
def firstOfType (ty : NcaType) (es : List Entry) : Option Nca :=
  es.findSome? fun e =>
    if pathExtension e.name = some "nca" then
      match Nca.fromEntry e with
      | .ok n => if n.content_type = ty then some n else none
      | .error _ => none
    else none

/-- The body of the update-package scan loop in `patch.rs` (lines 92-129):
accumulators for the control and program slots, each filled by the first
matching unit and guarded by `is_none` so it is never replaced; the loop
runs to the end of the walk, its `Err` arm only warning on `Result` errors.
A classification panic cannot be caught: it aborts the walk and the
process. -/
def scanUpdateAux (c p : Option Nca) : List Entry → Except Err (Option Nca × Option Nca)
  | [] => .ok (c, p)
  | e :: es =>
    if pathExtension e.name = some "nca" then
      match Nca.fromEntry e with
      | .ok nca =>
        match nca.content_type with
        | .Control => scanUpdateAux (if c.isNone then some nca else c) p es
        | .Program => scanUpdateAux c (if p.isNone then some nca else p) es
        | _ => scanUpdateAux c p es
      | .error err => if err.isPanic then .error err else scanUpdateAux c p es
    else scanUpdateAux c p es

/-- The update-package selection: sort ascending by size, then scan for the
control and program slots. -/
def selectUpdateNca (entries : List Entry) : Except Err (Option Nca × Option Nca) :=
  scanUpdateAux none none (sortBySize entries)

/-- The re-scan of the pack output directory in `patch.rs` (lines 201-210):
default walk order (no size sort), first entry with a "nca" extension is
classified, a classification error now being fatal. -/
def scanPackOutput : List Entry → Except Err (Option Nca)
  | [] => .ok none
  | e :: es =>
    if pathExtension e.name = some "nca" then (Nca.fromEntry e).map some
    else scanPackOutput es

/-- Fixed well-known location of the persisted title-keys file:
`home/.switch/title.keys` (`patch.rs` lines 43-47). -/
def titleKeysPath (home : String) : String :=
  home ++ "/.switch" ++ "/title.keys"

/-- Content written to the title-keys file by `patch.rs` line 50-53:
`format!` of base key text, a newline and update key text. -/
def titleKeysContent (base update : Nsp) : String :=
  base.get_title_key ++ "\n" ++ update.get_title_key

/-- Environment of one `patch_nsp_with_update` run: the walk listings of the
two extraction directories and of the pack output directory (each a flat
listing in walk order, as the container extraction produces a flat member
tree), the exit statuses of the external process stages, the home directory
and the resolved output directory. Plain filesystem operations
(`create_dir_all`, `write`, `rename`) are modelled as succeeding. -/
structure Env where
  baseEntries : List Entry
  updateEntries : List Entry
  extractBaseOk : Bool
  extractUpdateOk : Bool
  mergeOk : Bool
  pack1Ok : Bool
  packOutEntries : List Entry
  pack2Ok : Bool
  pack3Ok : Bool
  home : String
  outdir : String
deriving Repr, DecidableEq

/-- Observable side effects of a pipeline run: the title-keys write (path
and content) and whether the merge/convert stage logged its warning. -/
structure PipelineLog where
  titleKeysWritten : Option (String × String)
  mergeWarning : Bool
deriving Repr, DecidableEq

/-- Embedding of `patch_nsp_with_update` from `patch.rs`. Stages in source
order: extract both packages (fatal); best-effort key derivation (failures
only warn, state unchanged — faithful to the `if let Err` catch, since the
derivation path has no panic site and fails only with `Result` errors);
write the title-keys file; base scan (first
`Program` in ascending-size order, else the `expect` panic; a classification
panic inside the scan aborts the run); update scan (first `Control` and
first `Program`, missing either panics, the program slot being checked
first, a classification panic again fatal); merge/convert (non-fatal
warning); move of the
control unit into the nca dir; truncate the base title id to 16 characters
(panic when absent); pack the program unit (fatal); re-scan the pack output
(classification fatal, missing unit panics); pack the meta unit (fatal);
pack the final package (fatal); construct the resulting handle. -/
def patch_nsp_with_update (base update : Nsp) (env : Env) :
    PipelineLog × Except Err Nsp :=
  let log0 : PipelineLog := { titleKeysWritten := none, mergeWarning := false }
  if ¬ env.extractBaseOk then
    (log0, .error (.toolErr ("failed to extract " ++ base.path))) else
  if ¬ env.extractUpdateOk then
    (log0, .error (.toolErr ("failed to extract " ++ update.path))) else
  let base1 := match base.derive_title_key env.baseEntries with
    | .ok b => b
    | .error _ => base
  let update1 := match update.derive_title_key env.updateEntries with
    | .ok u => u
    | .error _ => update
  let log1 := { log0 with
    titleKeysWritten := some (titleKeysPath env.home, titleKeysContent base1 update1) }
  match selectBaseNca env.baseEntries with
  | .error e => (log1, .error e)
  | .ok none => (log1, .error (.panicked "base NCA must exist"))
  | .ok (some base_nca) =>
  match selectUpdateNca env.updateEntries with
  | .error e => (log1, .error e)
  | .ok (controlSlot, programSlot) =>
  match programSlot with
  | none => (log1, .error (.panicked "update NCA must exist"))
  | some _update_nca =>
  match controlSlot with
  | none => (log1, .error (.panicked "control NCA must exist"))
  | some control_nca =>
  let log2 := if env.mergeOk then log1 else { log1 with mergeWarning := true }
  let _control_nca := { control_nca with path := "nca/" ++ control_nca.path }
  match base_nca.title_id with
  | none => (log2, .error (.panicked "base NCA must have title_id"))
  | some tid =>
  let title_id : String := ⟨tid.data.take 16⟩
  if ¬ env.pack1Ok then
    (log2, .error (.toolErr "failed to pack romfs/exefs into a single NCA")) else
  match scanPackOutput env.packOutEntries with
  | .error e => (log2, .error e)
  | .ok none => (log2, .error (.panicked "patched NCA must exist"))
  | .ok (some _patched) =>
  if ¬ env.pack2Ok then
    (log2, .error (.toolErr "failed to generate Meta NCA from patched NCA and control NCA")) else
  if ¬ env.pack3Ok then
    (log2, .error (.toolErr "Packing all 3 NCAs into a NSP")) else
  (log2, Nsp.fromPath (env.outdir ++ "/" ++ title_id ++ "[yanu-patched].nsp"))

/-- Outcome of `fs::remove_dir_all` on one registered directory: success,
a not-found error (the directory was already absent), or another error
carrying its message. -/
inductive RemoveOutcome where
  | ok
  | notFound
  | err (msg : String)
deriving Repr, DecidableEq

/-- The genuine failures collected by `close_impl`: the `flat_map` keeps the
removal errors and the `filter_map` drops the not-found kind. -/
def genuineErrs (dirs : List (String × RemoveOutcome)) : List String :=
  dirs.filterMap fun d =>
    match d.2 with
    | .err m => some m
    | _ => none

/-- Embedding of `CleanupDirsOnDrop::close_impl` from
`crates/hac/src/utils/mod.rs`: every registered directory's removal outcome
is consumed, not-found outcomes are filtered out as non-errors, and the run
succeeds exactly when no genuine error remains, otherwise failing with the
newline-join of all collected error messages. The input pairs each
registered directory with its removal outcome. -/
def close_impl (dirs : List (String × RemoveOutcome)) : Except String Unit :=
  let errs := genuineErrs dirs
  if errs.isEmpty then .ok ()
  else .error (String.intercalate "\n" errs)

/-- Embedding of the consuming `CleanupDirsOnDrop::close`: it runs
`close_impl` (then `mem::forget`s the guard, which has no observable effect
here). -/
def CleanupDirsOnDrop.close (dirs : List (String × RemoveOutcome)) : Except String Unit :=
  close_impl dirs

/-- Sample inspection report of a Program unit. -/
def progReport : String := "Title ID: 0100000000010000\nContent Type: Program\n"

/-- Sample inspection report of a Control unit. -/
def ctrlReport : String := "Title ID: 0100000000010000\nContent Type: Control\n"

/-- Sample inspection report of a Meta unit. -/
def metaReport : String := "Title ID: 0100000000010000\nContent Type: Meta\n"

/-- Sample ticket blob of exactly the required length. -/
def tikBytes : List Nat := List.replicate 0x2b0 7

/-- Sample base Program unit entry. -/
def eBaseProg : Entry :=
  { name := "base-prog.nca", size := 100, bytes := none, toolExit := true,
    toolStdout := progReport }

/-- Sample base Meta unit entry. -/
def eBaseMeta : Entry :=
  { name := "base-meta.nca", size := 10, bytes := none, toolExit := true,
    toolStdout := metaReport }

/-- Sample base ticket entry. -/
def eBaseTik : Entry :=
  { name := "base.tik", size := 1, bytes := some tikBytes, toolExit := true,
    toolStdout := "" }

/-- Sample update Program unit entry. -/
def eUpdProg : Entry :=
  { name := "upd-prog.nca", size := 50, bytes := none, toolExit := true,
    toolStdout := progReport }

/-- Sample update Control unit entry. -/
def eUpdCtrl : Entry :=
  { name := "upd-ctrl.nca", size := 5, bytes := none, toolExit := true,
    toolStdout := ctrlReport }

/-- Sample update ticket entry. -/
def eUpdTik : Entry :=
  { name := "upd.tik", size := 1, bytes := some tikBytes, toolExit := true,
    toolStdout := "" }

/-- Sample pack output entry. -/
def ePatched : Entry :=
  { name := "patched.nca", size := 80, bytes := none, toolExit := true,
    toolStdout := progReport }

/-- Sample entry whose inspection succeeds but whose report has no
"Content Type:" line: classifying it hits the `expect` panic. -/
def noCtEntry : Entry :=
  { name := "weird.nca", size := 1, bytes := none, toolExit := true,
    toolStdout := "Title ID: 0100000000010000\n" }

/-- Environment in which every stage succeeds. -/
def happyEnv : Env :=
  { baseEntries := [eBaseProg, eBaseMeta, eBaseTik],
    updateEntries := [eUpdProg, eUpdCtrl, eUpdTik],
    extractBaseOk := true, extractUpdateOk := true, mergeOk := true,
    pack1Ok := true, packOutEntries := [ePatched], pack2Ok := true,
    pack3Ok := true, home := "home", outdir := "out" }

/-- Sample base package handle. -/
def baseNsp : Nsp := { path := "base.nsp", title_key := none }

/-- Sample update package handle. -/
def updNsp : Nsp := { path := "upd.nsp", title_key := none }

example :
    (patch_nsp_with_update baseNsp updNsp happyEnv).2 =
      .ok { path := "out/0100000000010000[yanu-patched].nsp", title_key := none } := by
  decide

example : lastToken "   Content Type:                     Program" = some "Program" := by decide
example : rustLines "a\r\nb\n" = ["a", "b"] := by decide
example :
    Nca.fromEntry
      { name := "x.nca", size := 5, bytes := none, toolExit := true,
        toolStdout := "Title ID: 0100000000010000\nContent Type: Program\n" } =
    .ok { path := "x.nca", title_id := some "0100000000010000",
          content_type := .Program } := by decide

example : TitleKey.new (some (List.replicate 0x2b0 7)) =
    .ok { title_id := List.replicate 16 7, key := List.replicate 16 7 } := by decide

/-! Helper lemmas shared by several claims. -/

theorem splitChar_ne_nil (sep : Char) (cs : List Char) : splitChar sep cs ≠ [] := by
  induction cs with
  | nil => simp [splitChar]
  | cons c rest ih =>
    simp only [splitChar]
    split
    · simp
    · cases h : splitChar sep rest with
      | nil => simp
      | cons t ts => simp

theorem lastToken_exists (line : String) : ∃ t, lastToken line = some t := by
  unfold lastToken
  cases h : (splitChar ' ' (trimChars line.data)).getLast? with
  | none =>
    exact absurd (List.getLast?_eq_none_iff.mp h) (splitChar_ne_nil ' ' (trimChars line.data))
  | some t => exact ⟨⟨t⟩, by simp [h]⟩

theorem hexDigitChar_ne_newline (n : Nat) : hexDigitChar n ≠ '\n' := by
  unfold hexDigitChar
  split <;> decide

theorem hexEncode_no_newline (bs : List Nat) : '\n' ∉ (hexEncode bs).data := by
  intro h
  simp only [hexEncode, List.mem_flatMap] at h
  obtain ⟨b, _, hb⟩ := h
  simp only [List.mem_cons, List.not_mem_nil, or_false] at hb
  rcases hb with hb | hb
  · exact hexDigitChar_ne_newline _ hb.symm
  · exact hexDigitChar_ne_newline _ hb.symm

/-- A well-formed line of the title-keys record: free of newlines, and either
the sentinel "=" or lowercase-hex title id, "=", lowercase-hex key. -/
def wellFormedKeyLine (s : String) : Prop :=
  '\n' ∉ s.data ∧
  (s = "=" ∨ ∃ tid key : List Nat, s = hexEncode tid ++ "=" ++ hexEncode key)

theorem strData_append (s t : String) : (s ++ t).data = s.data ++ t.data := by
  cases s; cases t; rfl

theorem keyText_data (k : TitleKey) :
    (TitleKey.toText k).data =
      (hexEncode k.title_id).data ++ '=' :: (hexEncode k.key).data := by
  simp only [TitleKey.toText, strData_append]
  rw [List.append_assoc]
  rfl

theorem get_title_key_wellFormed (n : Nsp) : wellFormedKeyLine n.get_title_key := by
  unfold Nsp.get_title_key
  cases hk : n.title_key with
  | none => exact ⟨by decide, Or.inl rfl⟩
  | some k =>
    refine ⟨?_, Or.inr ⟨k.title_id, k.key, rfl⟩⟩
    rw [keyText_data]
    intro h
    rcases List.mem_append.mp h with h | h
    · exact hexEncode_no_newline _ h
    · rcases List.mem_cons.mp h with h | h
      · exact absurd h (by decide)
      · exact hexEncode_no_newline _ h

/-! Claim theorems. -/

/-- C3: for a ticket blob of length at least 0x2b0 the Ticket Key Reader
returns exactly the 16 bytes at offset 0x2a0 as `title_id` and the 16 bytes
at offset 0x180 as `key`; for a shorter blob, and for a missing file, it
fails with an I/O error and returns no data. -/
theorem ticket_reader_reads_fixed_offsets :
    (∀ bytes : List Nat, 0x2b0 ≤ bytes.length →
      TitleKey.new (some bytes) =
        .ok { title_id := (bytes.drop 0x2a0).take 16, key := (bytes.drop 0x180).take 16 }) ∧
    (∀ bytes : List Nat, bytes.length < 0x2b0 →
      TitleKey.new (some bytes) = .error (.ioErr "failed to fill whole buffer")) ∧
    TitleKey.new none = .error (.ioErr "No such file or directory") := by
  refine ⟨?_, ?_, rfl⟩
  · intro bytes h
    have h2 : 400 ≤ bytes.length := by omega
    simp [TitleKey.new, readExact, titleIdOffset, titleKeyOffset, h, h2,
      Bind.bind, Except.bind, Functor.map, Except.map, Pure.pure, Except.pure]
  · intro bytes h
    have h1 : ¬ (688 ≤ bytes.length) := by omega
    simp [TitleKey.new, readExact, titleIdOffset, titleKeyOffset, h1,
      Bind.bind, Except.bind, Functor.map, Except.map]

/-- Witness for C3 at a 0x2b0-byte blob and a 0x20-byte blob. -/
theorem ticket_reader_reads_fixed_offsets_witness :
    (0x2b0 ≤ (List.replicate 0x2b0 7).length ∧
      TitleKey.new (some (List.replicate 0x2b0 7)) =
        .ok { title_id := ((List.replicate 0x2b0 (7:Nat)).drop 0x2a0).take 16,
              key := ((List.replicate 0x2b0 (7:Nat)).drop 0x180).take 16 }) ∧
    ((List.replicate 0x20 (3:Nat)).length < 0x2b0 ∧
      TitleKey.new (some (List.replicate 0x20 3)) =
        .error (.ioErr "failed to fill whole buffer")) :=
  ⟨⟨by decide, ticket_reader_reads_fixed_offsets.1 _ (by decide)⟩,
   ⟨by decide, ticket_reader_reads_fixed_offsets.2.1 _ (by decide)⟩⟩

/-- C9: package construction fails with a validation error exactly when the
extension of the path differs (case-sensitively) from "nsp" or is absent, and
succeeds exactly when the extension equals "nsp"; in particular "game.NSP"
and the extensionless "game" are rejected. -/
theorem nsp_construction_extension_validation :
    (∀ name : String, (∃ n, Nsp.fromPath name = .ok n) ↔ pathExtension name = some "nsp") ∧
    (∀ name : String, pathExtension name = none →
      Nsp.fromPath name = .error (.validation "no file found")) ∧
    (∀ (name e : String), pathExtension name = some e → e ≠ "nsp" →
      Nsp.fromPath name = .error (.validation (name ++ " is not a nsp file"))) ∧
    Nsp.fromPath "game.NSP" = .error (.validation "game.NSP is not a nsp file") ∧
    Nsp.fromPath "game" = .error (.validation "no file found") ∧
    Nsp.fromPath "game.nsp" = .ok { path := "game.nsp", title_key := none } := by
  refine ⟨?_, ?_, ?_, by decide, by decide, by decide⟩
  · intro name
    constructor
    · rintro ⟨n, hn⟩
      unfold Nsp.fromPath at hn
      cases h : pathExtension name with
      | none => rw [h] at hn; cases hn
      | some e =>
        rw [h] at hn
        by_cases he : e = "nsp"
        · rw [he]
        · simp [he] at hn
    · intro h
      exact ⟨{ path := name, title_key := none }, by simp [Nsp.fromPath, h]⟩
  · intro name h
    simp [Nsp.fromPath, h]
  · intro name e h he
    simp [Nsp.fromPath, h, he]

/-- Witness for C9: a matching path, an extensionless path and a
wrong-extension path. -/
theorem nsp_construction_extension_validation_witness :
    (∃ n, Nsp.fromPath "game.nsp" = .ok n) ∧
    Nsp.fromPath "game" = .error (.validation "no file found") ∧
    Nsp.fromPath "game.xci" = .error (.validation "game.xci is not a nsp file") :=
  ⟨(nsp_construction_extension_validation.1 "game.nsp").mpr (by decide),
   nsp_construction_extension_validation.2.1 "game" (by decide),
   nsp_construction_extension_validation.2.2.1 "game.xci" "xci" (by decide) (by decide)⟩

/-- C10: package construction is pure: for every path whose extension equals
"nsp" it succeeds — whether or not any file exists, since the function
consults nothing but the path — and the handle starts with no title key. -/
theorem nsp_construction_pure :
    ∀ name : String, pathExtension name = some "nsp" →
      Nsp.fromPath name = .ok { path := name, title_key := none } := by
  intro name h
  simp [Nsp.fromPath, h]

/-- Witness for C10 at a path no file lives at. -/
theorem nsp_construction_pure_witness :
    pathExtension "no-such-file.nsp" = some "nsp" ∧
    Nsp.fromPath "no-such-file.nsp" =
      .ok { path := "no-such-file.nsp", title_key := none } :=
  ⟨by decide, nsp_construction_pure "no-such-file.nsp" (by decide)⟩

/-- C8: `derive_title_key` is idempotent: with a key already present it is a
success no-op — whatever the search directory now holds — and on any success
the key only ever goes from absent to present, never reset. -/
theorem derive_title_key_idempotent :
    (∀ (n : Nsp) (k : TitleKey) (entries : List Entry),
      n.title_key = some k → n.derive_title_key entries = .ok n) ∧
    (∀ (n : Nsp) (entries : List Entry) (res : Nsp),
      n.derive_title_key entries = .ok res →
      (∀ k, n.title_key = some k → res = n) ∧
      (n.title_key = none → ∃ k, res.title_key = some k)) := by
  constructor
  · intro n k entries h
    unfold Nsp.derive_title_key
    rw [h]
  · intro n entries res h
    cases hk : n.title_key with
    | some k =>
      simp only [Nsp.derive_title_key, hk, Except.ok.injEq] at h
      subst h
      exact ⟨fun _ _ => rfl, fun _ => ⟨k, hk⟩⟩
    | none =>
      simp only [Nsp.derive_title_key, hk] at h
      cases hfind : entries.find? (fun e => pathExtension e.name = some "tik") with
      | none => simp only [hfind] at h; cases h
      | some e =>
        simp only [hfind] at h
        cases hnew : TitleKey.new e.bytes with
        | error err => simp only [hnew, Except.map] at h; cases h
        | ok k =>
          simp only [hnew, Except.map, Except.ok.injEq] at h
          exact ⟨fun k' hk' => absurd hk' (by simp [hk]), fun _ => ⟨k, by rw [← h]⟩⟩

/-- Witness for C8: a handle with a key in hand and an empty search
directory. -/
theorem derive_title_key_idempotent_witness :
    (Nsp.mk "a.nsp" (some (TitleKey.mk (List.replicate 16 1) (List.replicate 16 2)))).title_key =
        some (TitleKey.mk (List.replicate 16 1) (List.replicate 16 2)) ∧
    (Nsp.mk "a.nsp" (some (TitleKey.mk (List.replicate 16 1) (List.replicate 16 2)))).derive_title_key
        [] = .ok (Nsp.mk "a.nsp" (some (TitleKey.mk (List.replicate 16 1) (List.replicate 16 2)))) :=
  ⟨rfl, derive_title_key_idempotent.1 _ _ [] rfl⟩

/-- C4: closing the guard consumes the removal outcome of every registered
directory: it succeeds exactly when no genuine failure occurred, an
already-absent directory never contributes a failure, and a failing
directory still leaves every other directory attempted, all genuine failures
being joined into the single aggregate error. -/
theorem resource_guard_close_aggregates :
    (∀ dirs : List (String × RemoveOutcome),
      (CleanupDirsOnDrop.close dirs = .ok () ↔ genuineErrs dirs = [])) ∧
    (∀ (pre post : List (String × RemoveOutcome)) (d : String),
      CleanupDirsOnDrop.close (pre ++ (d, .notFound) :: post) =
        CleanupDirsOnDrop.close (pre ++ post)) ∧
    (∀ (pre post : List (String × RemoveOutcome)) (d m : String),
      CleanupDirsOnDrop.close (pre ++ (d, .err m) :: post) =
        .error (String.intercalate "\n" (genuineErrs pre ++ m :: genuineErrs post))) ∧
    (∀ dirs : List (String × RemoveOutcome), genuineErrs dirs ≠ [] →
      CleanupDirsOnDrop.close dirs = .error (String.intercalate "\n" (genuineErrs dirs))) := by
  have hclose : ∀ dirs, CleanupDirsOnDrop.close dirs =
      if genuineErrs dirs = [] then .ok ()
      else .error (String.intercalate "\n" (genuineErrs dirs)) := by
    intro dirs
    simp only [CleanupDirsOnDrop.close, close_impl, List.isEmpty_iff]
  refine ⟨?_, ?_, ?_, ?_⟩
  · intro dirs
    rw [hclose]
    by_cases h : genuineErrs dirs = []
    · simp [h]
    · simp [h]
  · intro pre post d
    have hg : genuineErrs (pre ++ (d, RemoveOutcome.notFound) :: post) =
        genuineErrs (pre ++ post) := by
      simp [genuineErrs, List.filterMap_append, List.filterMap_cons]
    rw [hclose, hclose, hg]
  · intro pre post d m
    rw [hclose]
    have h1 : genuineErrs (pre ++ (d, RemoveOutcome.err m) :: post) =
        genuineErrs pre ++ m :: genuineErrs post := by
      simp [genuineErrs, List.filterMap_append, List.filterMap_cons]
    rw [h1]
    rw [if_neg (by simp)]
  · intro dirs h
    rw [hclose, if_neg h]

/-- Witness for C4: one failing directory between an already-absent one and
another failing one; close attempts all and aggregates both failures. -/
theorem resource_guard_close_aggregates_witness :
    genuineErrs [("a", RemoveOutcome.err "x"), ("b", RemoveOutcome.notFound),
        ("c", RemoveOutcome.err "y")] ≠ [] ∧
    CleanupDirsOnDrop.close [("a", RemoveOutcome.err "x"), ("b", RemoveOutcome.notFound),
        ("c", RemoveOutcome.err "y")] =
      .error (String.intercalate "\n" (genuineErrs [("a", RemoveOutcome.err "x"),
        ("b", RemoveOutcome.notFound), ("c", RemoveOutcome.err "y")])) :=
  ⟨by decide, resource_guard_close_aggregates.2.2.2 _ (by decide)⟩

/-- C6: classification of a content unit whose report carries a
"Content Type:" line with an unrecognized final token fails with a
validation error; a report with no "Content Type:" line at all is also a
classification failure (the `expect` panic site), and in neither case is a
unit produced; a report with "Content Type: Program" and
"Title ID: 0100000000010000" yields a Program unit with that id. -/
theorem classifier_content_type_rules :
    (∀ (e : Entry) (line tok : String),
      pathExtension e.name = some "nca" → e.toolExit = true →
      (rustLines e.toolStdout).find? (fun l => lineContains l "Content Type:") = some line →
      lastToken line = some tok → NcaType.fromStr tok = none →
      Nca.fromEntry e = .error (.validation "failed to identify nca content type")) ∧
    (∀ e : Entry,
      pathExtension e.name = some "nca" → e.toolExit = true →
      (rustLines e.toolStdout).find? (fun l => lineContains l "Content Type:") = none →
      Nca.fromEntry e = .error (.panicked "content type should have been found")) ∧
    Nca.fromEntry (Entry.mk "x.nca" 5 none true
        "Title ID: 0100000000010000\nContent Type: Program\n") =
      .ok (Nca.mk "x.nca" (some "0100000000010000") NcaType.Program) := by
  refine ⟨?_, ?_, by decide⟩
  · intro e line tok hext htool hfind htok hparse
    simp only [Nca.fromEntry, hext, htool]
    cases hTID : (rustLines e.toolStdout).find? (fun l => lineContains l "Title ID:") with
    | none =>
      simp [hTID, hfind, htok, hparse, Bind.bind, Except.bind, Pure.pure, Except.pure]
    | some lineT =>
      obtain ⟨t, ht⟩ := lastToken_exists lineT
      simp [hTID, ht, hfind, htok, hparse, Bind.bind, Except.bind, Pure.pure, Except.pure]
  · intro e hext htool hfind
    simp only [Nca.fromEntry, hext, htool]
    cases hTID : (rustLines e.toolStdout).find? (fun l => lineContains l "Title ID:") with
    | none =>
      simp [hTID, hfind, Bind.bind, Except.bind, Pure.pure, Except.pure]
    | some lineT =>
      obtain ⟨t, ht⟩ := lastToken_exists lineT
      simp [hTID, ht, hfind, Bind.bind, Except.bind, Pure.pure, Except.pure]

/-- Witness for C6: an unrecognized-token report and a report with no
content-type line. -/
theorem classifier_content_type_rules_witness :
    Nca.fromEntry (Entry.mk "y.nca" 3 none true "Content Type: Unknown\n") =
      .error (.validation "failed to identify nca content type") ∧
    Nca.fromEntry (Entry.mk "z.nca" 3 none true "hello\n") =
      .error (.panicked "content type should have been found") :=
  ⟨classifier_content_type_rules.1 (Entry.mk "y.nca" 3 none true "Content Type: Unknown\n")
      "Content Type: Unknown" "Unknown" (by decide) rfl (by decide) (by decide) (by decide),
   classifier_content_type_rules.2.1 (Entry.mk "z.nca" 3 none true "hello\n")
      (by decide) rfl (by decide)⟩

instance : IsTotal Entry (fun a b => a.size ≤ b.size) :=
  ⟨fun a b => Nat.le_total a.size b.size⟩

instance : IsTrans Entry (fun a b => a.size ≤ b.size) :=
  ⟨fun _ _ _ h h2 => Nat.le_trans h h2⟩

theorem scanBase_eq_firstOfType (es : List Entry)
    (h : ∀ e ∈ es, ∀ err, Nca.fromEntry e = .error err → Err.isPanic err = false) :
    scanBase es = .ok (firstOfType .Program es) := by
  induction es with
  | nil => rfl
  | cons e es ih =>
    have he : ∀ err, Nca.fromEntry e = .error err → Err.isPanic err = false :=
      h e (List.mem_cons_self e es)
    have hes : ∀ x ∈ es, ∀ err, Nca.fromEntry x = .error err → Err.isPanic err = false :=
      fun x hx => h x (List.mem_cons_of_mem _ hx)
    by_cases hext : pathExtension e.name = some "nca"
    · cases hc : Nca.fromEntry e with
      | ok n =>
        cases hct : n.content_type <;>
          simp [scanBase, firstOfType, List.findSome?_cons, hext, hc, hct, ih hes]
      | error err =>
        have hpf := he err hc
        simp [scanBase, firstOfType, List.findSome?_cons, hext, hc, hpf, ih hes]
    · simp [scanBase, firstOfType, List.findSome?_cons, hext, ih hes]

theorem scanUpdateAux_eq :
    ∀ (es : List Entry) (c p : Option Nca),
      scanUpdateAux c p es =
        (scanUpdateAux none none es).map fun r => (c.or r.1, p.or r.2) := by
  intro es
  induction es with
  | nil =>
    intro c p
    cases c <;> cases p <;> simp [scanUpdateAux, Except.map]
  | cons e es ih =>
    intro c p
    by_cases hext : pathExtension e.name = some "nca"
    · cases hc : Nca.fromEntry e with
      | ok n =>
        cases hct : n.content_type with
        | Control =>
          simp only [scanUpdateAux, hext, hc, hct, if_pos, Option.isNone_none, ite_true]
          rw [ih (if c.isNone then some n else c) p, ih (some n) none]
          cases hbase : scanUpdateAux none none es with
          | error err => simp [Except.map]
          | ok r => cases c <;> simp [Except.map]
        | Program =>
          simp only [scanUpdateAux, hext, hc, hct, if_pos, Option.isNone_none, ite_true]
          rw [ih c (if p.isNone then some n else p), ih none (some n)]
          cases hbase : scanUpdateAux none none es with
          | error err => simp [Except.map]
          | ok r => cases p <;> simp [Except.map]
        | Meta =>
          simp only [scanUpdateAux, hext, hc, hct]
          rw [ih c p]
          simp
        | Manual =>
          simp only [scanUpdateAux, hext, hc, hct]
          rw [ih c p]
          simp
      | error err =>
        cases hpf : err.isPanic with
        | true => simp [scanUpdateAux, hext, hc, hpf, Except.map]
        | false =>
          simp only [scanUpdateAux, hext, hc, hpf, Bool.false_eq_true, ite_false]
          rw [ih c p]
          simp
    · simp only [scanUpdateAux, hext]
      rw [ih c p]
      simp

theorem scanUpdate_noPanic (es : List Entry)
    (h : ∀ e ∈ es, ∀ err, Nca.fromEntry e = .error err → Err.isPanic err = false) :
    scanUpdateAux none none es = .ok (firstOfType .Control es, firstOfType .Program es) := by
  induction es with
  | nil => simp [scanUpdateAux, firstOfType]
  | cons e es ih =>
    have he : ∀ err, Nca.fromEntry e = .error err → Err.isPanic err = false :=
      h e (List.mem_cons_self e es)
    have hes : ∀ x ∈ es, ∀ err, Nca.fromEntry x = .error err → Err.isPanic err = false :=
      fun x hx => h x (List.mem_cons_of_mem _ hx)
    by_cases hext : pathExtension e.name = some "nca"
    · cases hc : Nca.fromEntry e with
      | ok n =>
        cases hct : n.content_type with
        | Control =>
          simp only [scanUpdateAux, hext, hc, hct, if_pos, Option.isNone_none, ite_true]
          rw [scanUpdateAux_eq es (some n) none, ih hes]
          simp [Except.map, firstOfType, List.findSome?_cons, hext, hc, hct]
        | Program =>
          simp only [scanUpdateAux, hext, hc, hct, if_pos, Option.isNone_none, ite_true]
          rw [scanUpdateAux_eq es none (some n), ih hes]
          simp [Except.map, firstOfType, List.findSome?_cons, hext, hc, hct]
        | Meta =>
          simp [scanUpdateAux, hext, hc, hct, ih hes, firstOfType, List.findSome?_cons]
        | Manual =>
          simp [scanUpdateAux, hext, hc, hct, ih hes, firstOfType, List.findSome?_cons]
      | error err =>
        have hpf := he err hc
        simp [scanUpdateAux, hext, hc, hpf, ih hes, firstOfType, List.findSome?_cons]
    · simp [scanUpdateAux, hext, ih hes, firstOfType, List.findSome?_cons]

/-- Decidable check that an entry cannot panic classification: its
classification either succeeds or fails with a recoverable error. -/
def entryNonPanicking (e : Entry) : Bool :=
  match Nca.fromEntry e with
  | .ok _ => true
  | .error err => ! err.isPanic

theorem noPanic_of_all (es : List Entry) (hall : es.all entryNonPanicking = true) :
    ∀ e ∈ es, ∀ err, Nca.fromEntry e = .error err → Err.isPanic err = false := by
  intro e he err hc
  have h := List.all_eq_true.mp hall e he
  simp only [entryNonPanicking, hc] at h
  simpa using h

/-- Counterexample to C1: an entry whose inspection succeeds but whose
report lacks a "Content Type:" line fails classification, yet it is not
skipped: the scan aborts with the panic instead of continuing to the Program
unit present later in the walk, and the whole pipeline aborts with that
panic; moreover the no-Program failure is the panic kind, not a recoverable
not-found error. -/
theorem base_scan_abort_counterexample :
    Nca.fromEntry noCtEntry = .error (.panicked "content type should have been found") ∧
    firstOfType .Program (sortBySize [noCtEntry, eBaseProg]) =
      some (Nca.mk "base-prog.nca" (some "0100000000010000") NcaType.Program) ∧
    selectBaseNca [noCtEntry, eBaseProg] =
      .error (.panicked "content type should have been found") ∧
    (patch_nsp_with_update baseNsp updNsp
        { happyEnv with baseEntries := [noCtEntry, eBaseProg] }).2 =
      .error (.panicked "content type should have been found") ∧
    (patch_nsp_with_update baseNsp updNsp { happyEnv with baseEntries := [] }).2 =
      .error (.panicked "base NCA must exist") ∧
    Err.isPanic (.panicked "base NCA must exist") = true ∧
    Err.isPanic (.notFound "base NCA must exist") = false :=
  ⟨by decide, by decide, by decide, by decide, by decide, by decide, by decide⟩

/-- C1 (amended): the base-package scan enumerates the walk entries in
ascending order of file size (the sorted listing is an ascending permutation
of the walk); a file whose classification fails with a recoverable `Result`
error is skipped without aborting the scan, but a classification panic (a
report with no "Content Type:" line) aborts the scan; on a walk free of such
panics the selected unit is the first one of the sorted listing classified
as Program; with no Program unit the pipeline fails via the `expect` panic
on the empty selection (not a recoverable not-found error), and a scan panic
likewise aborts the pipeline. -/
theorem base_scan_policy :
    (∀ entries : List Entry,
      List.Pairwise (fun a b : Entry => a.size ≤ b.size) (sortBySize entries) ∧
      (sortBySize entries).Perm entries) ∧
    (∀ (e : Entry) (es : List Entry) (err : Err),
      Nca.fromEntry e = .error err → Err.isPanic err = false →
      scanBase (e :: es) = scanBase es) ∧
    (∀ (e : Entry) (es : List Entry) (err : Err),
      pathExtension e.name = some "nca" →
      Nca.fromEntry e = .error err → Err.isPanic err = true →
      scanBase (e :: es) = .error err) ∧
    (∀ entries : List Entry,
      (∀ e ∈ entries, ∀ err, Nca.fromEntry e = .error err → Err.isPanic err = false) →
      selectBaseNca entries = .ok (firstOfType .Program (sortBySize entries))) ∧
    (∀ (base update : Nsp) (env : Env),
      env.extractBaseOk = true → env.extractUpdateOk = true →
      selectBaseNca env.baseEntries = .ok none →
      (patch_nsp_with_update base update env).2 =
        .error (.panicked "base NCA must exist")) ∧
    (∀ (base update : Nsp) (env : Env) (err : Err),
      env.extractBaseOk = true → env.extractUpdateOk = true →
      selectBaseNca env.baseEntries = .error err →
      (patch_nsp_with_update base update env).2 = .error err) := by
  refine ⟨?_, ?_, ?_, ?_, ?_, ?_⟩
  · intro entries
    exact ⟨List.sorted_insertionSort _ entries, List.perm_insertionSort _ entries⟩
  · intro e es err hc hpf
    by_cases hext : pathExtension e.name = some "nca"
    · simp [scanBase, hext, hc, hpf]
    · simp [scanBase, hext]
  · intro e es err hext hc hpt
    simp [scanBase, hext, hc, hpt]
  · intro entries h
    refine scanBase_eq_firstOfType (sortBySize entries) ?_
    intro e he err
    exact h e ((List.perm_insertionSort _ entries).mem_iff.mp he) err
  · intro base update env hb hu hscan
    simp [patch_nsp_with_update, hb, hu, hscan]
  · intro base update env err hb hu hscan
    simp [patch_nsp_with_update, hb, hu, hscan]

/-- Witness for C1: a non-panic classification failure is skipped, the panic
aborts, the happy walk (whose only classification errors are non-panic)
selects its first Program unit, the empty walk makes the pipeline panic on
the empty selection, and a panicking walk aborts the pipeline. -/
theorem base_scan_policy_witness :
    scanBase [Entry.mk "bad.nca" 1 none false ""] = scanBase [] ∧
    scanBase [noCtEntry] = .error (.panicked "content type should have been found") ∧
    selectBaseNca happyEnv.baseEntries =
      .ok (firstOfType .Program (sortBySize happyEnv.baseEntries)) ∧
    (patch_nsp_with_update baseNsp updNsp
        { happyEnv with baseEntries := [] }).2 =
      .error (.panicked "base NCA must exist") ∧
    (patch_nsp_with_update baseNsp updNsp
        { happyEnv with baseEntries := [noCtEntry] }).2 =
      .error (.panicked "content type should have been found") :=
  ⟨base_scan_policy.2.1 (Entry.mk "bad.nca" 1 none false "") []
      (.toolErr "hactool failed to view info of bad.nca") (by decide) (by decide),
   base_scan_policy.2.2.1 noCtEntry []
      (.panicked "content type should have been found") (by decide) (by decide) (by decide),
   base_scan_policy.2.2.2.1 happyEnv.baseEntries
      (noPanic_of_all happyEnv.baseEntries (by decide)),
   base_scan_policy.2.2.2.2.1 baseNsp updNsp { happyEnv with baseEntries := [] }
      rfl rfl (by decide),
   base_scan_policy.2.2.2.2.2 baseNsp updNsp { happyEnv with baseEntries := [noCtEntry] }
      (.panicked "content type should have been found") rfl rfl (by decide)⟩

/-- Counterexample to C2: a successful-inspection entry with no
"Content Type:" line aborts the update walk with the classification panic
instead of scanning on, even though a Control unit and a Program unit follow
in the walk; the pipeline aborts with that panic. -/
theorem update_scan_abort_counterexample :
    Nca.fromEntry noCtEntry = .error (.panicked "content type should have been found") ∧
    firstOfType .Control (sortBySize [noCtEntry, eUpdCtrl, eUpdProg]) =
      some (Nca.mk "upd-ctrl.nca" (some "0100000000010000") NcaType.Control) ∧
    firstOfType .Program (sortBySize [noCtEntry, eUpdCtrl, eUpdProg]) =
      some (Nca.mk "upd-prog.nca" (some "0100000000010000") NcaType.Program) ∧
    selectUpdateNca [noCtEntry, eUpdCtrl, eUpdProg] =
      .error (.panicked "content type should have been found") ∧
    (patch_nsp_with_update baseNsp updNsp
        { happyEnv with updateEntries := [noCtEntry, eUpdCtrl, eUpdProg] }).2 =
      .error (.panicked "content type should have been found") :=
  ⟨by decide, by decide, by decide, by decide, by decide⟩

/-- C2 (amended): the update-package scan walks the same ascending-by-size
listing; on a walk whose classification failures are all recoverable it
selects the first Control unit and the first Program unit, each slot filled
once and never replaced, the two slots independent of each other; a
classification panic aborts the walk (and the pipeline) instead of
continuing; when the walk completes with an empty program or control slot
the pipeline fails fatally (the `expect` panics, program slot checked
first). -/
theorem update_scan_policy :
    (∀ entries : List Entry,
      (∀ e ∈ entries, ∀ err, Nca.fromEntry e = .error err → Err.isPanic err = false) →
      selectUpdateNca entries =
        .ok (firstOfType .Control (sortBySize entries),
             firstOfType .Program (sortBySize entries))) ∧
    (∀ (c : Nca) (p : Option Nca) (es : List Entry) (r : Option Nca × Option Nca),
      scanUpdateAux (some c) p es = .ok r → r.1 = some c) ∧
    (∀ (c : Option Nca) (p : Nca) (es : List Entry) (r : Option Nca × Option Nca),
      scanUpdateAux c (some p) es = .ok r → r.2 = some p) ∧
    (∀ (c p q : Option Nca) (es : List Entry),
      (scanUpdateAux c p es).map Prod.fst = (scanUpdateAux c q es).map Prod.fst ∧
      (scanUpdateAux p c es).map Prod.snd = (scanUpdateAux q c es).map Prod.snd) ∧
    (∀ (e : Entry) (es : List Entry) (err : Err) (c p : Option Nca),
      pathExtension e.name = some "nca" →
      Nca.fromEntry e = .error err → Err.isPanic err = true →
      scanUpdateAux c p (e :: es) = .error err) ∧
    (∀ (base update : Nsp) (env : Env),
      env.extractBaseOk = true → env.extractUpdateOk = true →
      (∃ b, selectBaseNca env.baseEntries = .ok (some b)) →
      ((∀ cslot, selectUpdateNca env.updateEntries = .ok (cslot, none) →
        (patch_nsp_with_update base update env).2 =
          .error (.panicked "update NCA must exist")) ∧
       (∀ p, selectUpdateNca env.updateEntries = .ok (none, some p) →
        (patch_nsp_with_update base update env).2 =
          .error (.panicked "control NCA must exist")))) := by
  refine ⟨?_, ?_, ?_, ?_, ?_, ?_⟩
  · intro entries h
    refine scanUpdate_noPanic (sortBySize entries) ?_
    intro e he err
    exact h e ((List.perm_insertionSort _ entries).mem_iff.mp he) err
  · intro c p es r h
    rw [scanUpdateAux_eq] at h
    cases hbase : scanUpdateAux none none es with
    | error err => rw [hbase] at h; cases h
    | ok rr =>
      rw [hbase] at h
      simp only [Except.map, Except.ok.injEq] at h
      rw [← h]
      simp
  · intro c p es r h
    rw [scanUpdateAux_eq] at h
    cases hbase : scanUpdateAux none none es with
    | error err => rw [hbase] at h; cases h
    | ok rr =>
      rw [hbase] at h
      simp only [Except.map, Except.ok.injEq] at h
      rw [← h]
      simp
  · intro c p q es
    rw [scanUpdateAux_eq es c p, scanUpdateAux_eq es c q,
      scanUpdateAux_eq es p c, scanUpdateAux_eq es q c]
    cases hbase : scanUpdateAux none none es with
    | error err => simp [Except.map]
    | ok rr => simp [Except.map]
  · intro e es err c p hext hc hpt
    simp [scanUpdateAux, hext, hc, hpt]
  · intro base update env hb hu ⟨b, hbase⟩
    constructor
    · intro cslot hupd
      simp [patch_nsp_with_update, hb, hu, hbase, hupd]
    · intro p hupd
      simp [patch_nsp_with_update, hb, hu, hbase, hupd]

/-- Witness for C2: the panic-free happy walk selects both first units, a
filled slot survives a further walk, a panicking entry aborts the walk, and
a completed walk with only a Program unit makes the pipeline fail on the
empty control slot. -/
theorem update_scan_policy_witness :
    selectUpdateNca happyEnv.updateEntries =
      .ok (firstOfType .Control (sortBySize happyEnv.updateEntries),
           firstOfType .Program (sortBySize happyEnv.updateEntries)) ∧
    scanUpdateAux (some (Nca.mk "c.nca" none NcaType.Control)) none [eUpdCtrl] =
      .ok (some (Nca.mk "c.nca" none NcaType.Control), none) ∧
    ((some (Nca.mk "c.nca" none NcaType.Control), (none : Option Nca))).1 =
      some (Nca.mk "c.nca" none NcaType.Control) ∧
    scanUpdateAux none none [noCtEntry] =
      .error (.panicked "content type should have been found") ∧
    (patch_nsp_with_update baseNsp updNsp
        { happyEnv with updateEntries := [eUpdProg] }).2 =
      .error (.panicked "control NCA must exist") :=
  ⟨update_scan_policy.1 happyEnv.updateEntries
      (noPanic_of_all happyEnv.updateEntries (by decide)),
   by decide,
   update_scan_policy.2.1 (Nca.mk "c.nca" none NcaType.Control) none [eUpdCtrl]
      (some (Nca.mk "c.nca" none NcaType.Control), none) (by decide),
   update_scan_policy.2.2.2.2.1 noCtEntry []
      (.panicked "content type should have been found") none none
      (by decide) (by decide) (by decide),
   (update_scan_policy.2.2.2.2.2 baseNsp updNsp
      { happyEnv with updateEntries := [eUpdProg] } rfl rfl
      ⟨Nca.mk "base-prog.nca" (some "0100000000010000") NcaType.Program, by decide⟩).2
    (Nca.mk "upd-prog.nca" (some "0100000000010000") NcaType.Program) (by decide)⟩

/-- C7: the merge/convert stage is the only non-fatal external-process
stage: the pipeline result is independent of the merge exit status, a
non-success merge exit only logs a warning when the stage is reached, and a
successful pipeline forces success of every other process stage (both
extractions and all three pack invocations). -/
theorem merge_stage_only_nonfatal :
    (∀ (base update : Nsp) (env : Env) (b1 b2 : Bool),
      (patch_nsp_with_update base update { env with mergeOk := b1 }).2 =
        (patch_nsp_with_update base update { env with mergeOk := b2 }).2) ∧
    (∀ (base update : Nsp) (env : Env),
      env.extractBaseOk = true → env.extractUpdateOk = true →
      (∃ b, selectBaseNca env.baseEntries = .ok (some b)) →
      (∃ c p, selectUpdateNca env.updateEntries = .ok (some c, some p)) →
      env.mergeOk = false →
      (patch_nsp_with_update base update env).1.mergeWarning = true) ∧
    (∀ (base update : Nsp) (env : Env) (n : Nsp),
      (patch_nsp_with_update base update env).2 = .ok n →
      env.extractBaseOk = true ∧ env.extractUpdateOk = true ∧
      env.pack1Ok = true ∧ env.pack2Ok = true ∧ env.pack3Ok = true) := by
  refine ⟨?_, ?_, ?_⟩
  · intro base update env b1 b2
    rcases env with ⟨be, ue, xb, xu, mo, p1, po, p2, p3, hm, od⟩
    simp only [patch_nsp_with_update]
    repeat' split <;> try rfl
  · intro base update env hb hu ⟨b, hbase⟩ ⟨c, p, hupd⟩ hmerge
    simp [patch_nsp_with_update, hb, hu, hbase, hupd, hmerge]
    repeat' split
    all_goals rfl
  · intro base update env n h
    rcases env with ⟨be, ue, xb, xu, mo, p1, po, p2, p3, hm, od⟩
    simp only [patch_nsp_with_update] at h
    repeat' split at h
    all_goals simp_all

/-- Witness for C7: with every other stage succeeding, a failing merge stage
still lets the pipeline succeed and only sets the warning flag, while a
successful run certifies the other five stage statuses. -/
theorem merge_stage_only_nonfatal_witness :
    (patch_nsp_with_update baseNsp updNsp { happyEnv with mergeOk := false }).2 =
      (patch_nsp_with_update baseNsp updNsp { happyEnv with mergeOk := true }).2 ∧
    (patch_nsp_with_update baseNsp updNsp
        { happyEnv with mergeOk := false }).1.mergeWarning = true ∧
    (happyEnv.extractBaseOk = true ∧ happyEnv.extractUpdateOk = true ∧
      happyEnv.pack1Ok = true ∧ happyEnv.pack2Ok = true ∧ happyEnv.pack3Ok = true) := by
  refine ⟨merge_stage_only_nonfatal.1 baseNsp updNsp happyEnv false true, ?_, ?_⟩
  · exact merge_stage_only_nonfatal.2.1 baseNsp updNsp { happyEnv with mergeOk := false }
      rfl rfl
      ⟨Nca.mk "base-prog.nca" (some "0100000000010000") NcaType.Program, by decide⟩
      ⟨Nca.mk "upd-ctrl.nca" (some "0100000000010000") NcaType.Control,
       Nca.mk "upd-prog.nca" (some "0100000000010000") NcaType.Program, by decide⟩
      rfl
  · exact merge_stage_only_nonfatal.2.2 baseNsp updNsp happyEnv
      (Nsp.mk "out/0100000000010000[yanu-patched].nsp" none) (by decide)

/-- Title-keys file content as the claim words it. Modelled from the spec:
"one line per package ... with a newline per entry", i.e. each of the two
entries is terminated by a newline. -/
def specTitleKeysContent (base update : Nsp) : String :=
  base.get_title_key ++ "\n" ++ update.get_title_key ++ "\n"

/-- Environment whose extraction directories hold no ticket files, so both
key derivations fail and both packages keep the sentinel line. -/
def noTikEnv : Env :=
  { happyEnv with baseEntries := [eBaseProg, eBaseMeta],
                  updateEntries := [eUpdProg, eUpdCtrl] }

/-- Counterexample to C5: the run writes the two sentinel lines separated by
one newline with no trailing newline, while one newline per entry would end
the content with a newline; the two contents differ. -/
theorem title_keys_newline_counterexample :
    (patch_nsp_with_update baseNsp updNsp noTikEnv).1.titleKeysWritten =
      some (titleKeysPath "home", "=\n=") ∧
    specTitleKeysContent baseNsp updNsp = "=\n=\n" ∧
    titleKeysContent baseNsp updNsp = "=\n=" ∧
    titleKeysContent baseNsp updNsp ≠ specTitleKeysContent baseNsp updNsp := by
  refine ⟨by decide, by decide, by decide, by decide⟩

/-- C5 (amended): each run rewrites the record at the fixed well-known
location `home/.switch/title.keys` with one line per package, base first,
each line the lowercase-hex `<title id>=<key>` form or the `=` sentinel and
free of newlines, the two entries separated by one newline — with no
trailing newline after the final entry. -/
theorem title_keys_record_format :
    ∀ (base update : Nsp) (env : Env),
      env.extractBaseOk = true → env.extractUpdateOk = true →
      ∃ base1 update1 : Nsp,
        (base1 = base ∨ base.derive_title_key env.baseEntries = .ok base1) ∧
        (update1 = update ∨ update.derive_title_key env.updateEntries = .ok update1) ∧
        (patch_nsp_with_update base update env).1.titleKeysWritten =
          some (titleKeysPath env.home, titleKeysContent base1 update1) ∧
        titleKeysContent base1 update1 =
          base1.get_title_key ++ "\n" ++ update1.get_title_key ∧
        wellFormedKeyLine base1.get_title_key ∧
        wellFormedKeyLine update1.get_title_key := by
  intro base update env hb hu
  obtain ⟨base1, hb1, hbm⟩ : ∃ b1,
      (b1 = base ∨ base.derive_title_key env.baseEntries = .ok b1) ∧
      (match base.derive_title_key env.baseEntries with
        | .ok b => b
        | .error _ => base) = b1 := by
    cases hdb : base.derive_title_key env.baseEntries with
    | ok b => exact ⟨b, Or.inr rfl, rfl⟩
    | error err => exact ⟨base, Or.inl rfl, rfl⟩
  obtain ⟨update1, hu1, hum⟩ : ∃ u1,
      (u1 = update ∨ update.derive_title_key env.updateEntries = .ok u1) ∧
      (match update.derive_title_key env.updateEntries with
        | .ok u => u
        | .error _ => update) = u1 := by
    cases hdu : update.derive_title_key env.updateEntries with
    | ok u => exact ⟨u, Or.inr rfl, rfl⟩
    | error err => exact ⟨update, Or.inl rfl, rfl⟩
  refine ⟨base1, update1, hb1, hu1, ?_, rfl,
    get_title_key_wellFormed base1, get_title_key_wellFormed update1⟩
  simp only [patch_nsp_with_update, hb, hu, hbm, hum]
  repeat' split
  all_goals simp_all

/-- Witness for C5 at the no-ticket environment. -/
theorem title_keys_record_format_witness :
    ∃ base1 update1 : Nsp,
      (base1 = baseNsp ∨ baseNsp.derive_title_key noTikEnv.baseEntries = .ok base1) ∧
      (update1 = updNsp ∨ updNsp.derive_title_key noTikEnv.updateEntries = .ok update1) ∧
      (patch_nsp_with_update baseNsp updNsp noTikEnv).1.titleKeysWritten =
        some (titleKeysPath noTikEnv.home, titleKeysContent base1 update1) ∧
      titleKeysContent base1 update1 =
        base1.get_title_key ++ "\n" ++ update1.get_title_key ∧
      wellFormedKeyLine base1.get_title_key ∧
      wellFormedKeyLine update1.get_title_key :=
  title_keys_record_format baseNsp updNsp noTikEnv rfl rfl

end Yanu
